import Mathlib

/-!
Verification development for the practice-pumpfun-sdk repository.

The repository itself is thin glue around an external SDK; its specification
describes, besides the real helpers (wallet loading, config fallback, balance
reading, the example buy/sell scripts), a NOTIONAL transaction submission and
confirmation orchestrator (spec sections 2 to 8) that the repository does not
contain.  The orchestrator, its operation log and its price model are therefore
modelled here from the words of the spec; the helpers and example scripts are
embedded from the TypeScript source.
-/

set_option maxRecDepth 8000

namespace PumpSpec

/-! ## Price model (modelled from the spec) -/

/-- Modelled from the spec: BondingCurveState of spec section 3, with the
virtual base reserve, virtual quote reserve, real base reserve and total
supply, all non-negative integers.  The repository delegates pricing to the
external SDK, so this state is not present under src. -/
structure BondingCurveState where
  virtualBase : Nat
  virtualQuote : Nat
  realBase : Nat
  totalSupply : Nat
deriving DecidableEq

/-- Direction of a trade: a buy spends quote and receives base, a sell spends
base and receives quote. -/
inductive TradeDirection where
  | baseForQuote
  | quoteForBase
deriving DecidableEq

/-- Modelled from the spec: quoteOutput of spec section 4.3, the pure
product-based pricing function over integer arithmetic.  The spec prescribes
product-based pricing with integer or fixed-point arithmetic throughout; the
constant-product form keeps virtualBase * virtualQuote invariant, with the
output rounded down by integer division. -/
def quoteOutput (s : BondingCurveState) (inputAmount : Nat) (d : TradeDirection) : Nat :=
  match d with
  | .baseForQuote => s.virtualBase - s.virtualBase * s.virtualQuote / (s.virtualQuote + inputAmount)
  | .quoteForBase => s.virtualQuote - s.virtualBase * s.virtualQuote / (s.virtualBase + inputAmount)

/-- Modelled from the spec: minAcceptable of spec section 4.3, the
minimum-acceptable output floor, floor = expected * (1 - slippageBps / 10000),
computed with integer arithmetic as expected * (10000 - slippageBps) / 10000. -/
def minAcceptable (expected slippageBps : Nat) : Nat :=
  expected * (10000 - slippageBps) / 10000

/-! ## Orchestrator data model (modelled from the spec) -/

/-- Modelled from the spec: the operation kind of a TradeIntent, spec
section 3. -/
inductive OperationKind where
  | buyOp
  | sellOp
  | createAndBuyOp
deriving DecidableEq

/-- Modelled from the spec: TradeIntent of spec section 3; the account
reference and asset identifier are modelled as numeric identifiers, the amount
is in the smallest unit, the slippage tolerance in basis points, and the nonce
is the distinguishing component of the intent hash.  The intent hash of spec
section 4.2 is modelled by the intent value itself, which is an injective
hash of the tuple the spec lists. -/
structure TradeIntent where
  account : Nat
  asset : Nat
  amount : Nat
  slippageBps : Nat
  kind : OperationKind
  nonce : Nat
deriving DecidableEq

/-- Trades of kind buy or createAndBuy spend quote for base; sells spend base
for quote. -/
def tradeDirection : OperationKind → TradeDirection
  | .buyOp => .baseForQuote
  | .createAndBuyOp => .baseForQuote
  | .sellOp => .quoteForBase

/-- Modelled from the spec: the typed terminal outcomes of spec sections 4.1
and 7: Confirmed with the realized output, and the terminal errors
InvalidParameter, InsufficientFunds, AssetNotFound, Rejected and
Failed-exhausted-retries. -/
inductive Outcome where
  | confirmed (output : Nat)
  | invalidParameter
  | insufficientFunds
  | assetNotFound
  | rejected
  | failedExhaustedRetries
deriving DecidableEq

/-- Modelled from the spec: the result of ChainClient.getStatus, spec
section 6: Pending, Confirmed, Rejected or Unknown. -/
inductive QueryStatus where
  | qPending
  | qConfirmed (output : Nat)
  | qRejected
  | qUnknown
deriving DecidableEq

/-- Observable events of one orchestrator execution: ChainClient.submit calls,
transient network errors, state transitions of the confirmation state machine
of spec section 4.1, the status re-query made before any resubmission, and the
decision to resubmit. -/
inductive Event where
  | submitCall (attempt : Nat)
  | netErrorEv (attempt : Nat)
  | timedOutEv (attempt : Nat)
  | requeryEv (attempt : Nat) (st : QueryStatus)
  | resubmitEv (attempt : Nat)
  | confirmedEv (attempt : Nat) (output : Nat)
  | rejectedEv (attempt : Nat)
deriving DecidableEq

/-- Modelled from the spec: the behaviour the remote ledger assigns to one
submission attempt.  submitOk is whether ChainClient.submit hands off without a
NetworkError; fate is some raw realized output when the submission lands on the
ledger and none when it is dropped and will never execute (its status queries
answer Unknown); observedInBudget is whether confirmation is observed within
the bounded wait budget of spec section 5. -/
structure AttemptBehavior where
  submitOk : Bool
  fate : Option Nat
  observedInBudget : Bool

/-- Modelled from the spec: the external collaborators of spec section 6 seen
by one execution: per-attempt ledger behaviour, the account balance of the
spending asset, the estimated fee, the bonding curve state the PriceModel
resolves, and whether the target asset resolves at all. -/
structure ChainEnv where
  attempt : Nat → AttemptBehavior
  balance : Nat
  fee : Nat
  curve : BondingCurveState
  assetFound : Bool

/-- Modelled from the spec: orchestrator configuration, spec sections 4.1 and
4.2: the maximum retry count and the dedup window. -/
structure OrchestratorConfig where
  maxRetries : Nat
  dedupWindow : Nat

/-- Modelled from the spec: one OperationLog record, spec section 4.2, keyed by
the intent, with the recording time and the terminal outcome. -/
structure LogEntry where
  intent : TradeIntent
  recordedAt : Nat
  outcome : Outcome
deriving DecidableEq

/-- Modelled from the spec: the append-only OperationLog of spec section 4.2. -/
abbrev OperationLog := List LogEntry

/-- Modelled from the spec: lookup of spec section 4.2, used by the
orchestrator to detect an exact-duplicate intent submitted within the dedup
window; returns the prior outcome when a matching record is recent enough. -/
def lookupDedup (cfg : OrchestratorConfig) (log : OperationLog) (now : Nat)
    (intent : TradeIntent) : Option Outcome :=
  match log.find? (fun e => decide (e.intent = intent) && Nat.ble (now - e.recordedAt) cfg.dedupWindow) with
  | some e => some e.outcome
  | none => none

/-- Declared minimum-acceptable output floor for an intent against the curve
the environment resolves, spec section 4.1. -/
def floorFor (env : ChainEnv) (intent : TradeIntent) : Nat :=
  minAcceptable (quoteOutput env.curve intent.amount (tradeDirection intent.kind)) intent.slippageBps

/-- Modelled from the spec: the submission and confirmation loop of spec
section 4.1.  Each attempt submits with the floor attached; the ledger-side
check confirms only when the raw realized output reaches the floor and rejects
otherwise.  A submission whose confirmation is not observed within the wait
budget makes the orchestrator re-query ChainClient.getStatus on the original
submission id: a Confirmed or Rejected answer is adopted as the terminal state
and only an Unknown answer triggers a resubmission with a fresh idempotency
key, up to the retry budget, after which the operation terminates as
Failed-exhausted-retries.  A NetworkError from submit consumes one retry and
resubmits directly, since no submission id exists to query.  The result is the
outcome together with the trace of observable events. -/
def runAttempts (env : ChainEnv) (floorAmt : Nat) : Nat → Nat → Outcome × List Event
  | _, 0 => (.failedExhaustedRetries, [])
  | i, fuel + 1 =>
    let b := env.attempt i
    if b.submitOk = false then
      if fuel = 0 then
        (.failedExhaustedRetries, [.submitCall i, .netErrorEv i])
      else
        let r := runAttempts env floorAmt (i + 1) fuel
        (r.1, .submitCall i :: .netErrorEv i :: r.2)
    else
      match b.fate with
      | some raw =>
        if floorAmt ≤ raw then
          if b.observedInBudget then
            (.confirmed raw, [.submitCall i, .confirmedEv i raw])
          else
            (.confirmed raw, [.submitCall i, .timedOutEv i, .requeryEv i (.qConfirmed raw), .confirmedEv i raw])
        else
          if b.observedInBudget then
            (.rejected, [.submitCall i, .rejectedEv i])
          else
            (.rejected, [.submitCall i, .timedOutEv i, .requeryEv i .qRejected, .rejectedEv i])
      | none =>
        if fuel = 0 then
          (.failedExhaustedRetries, [.submitCall i, .timedOutEv i, .requeryEv i .qUnknown])
        else
          let r := runAttempts env floorAmt (i + 1) fuel
          (r.1, .submitCall i :: .timedOutEv i :: .requeryEv i .qUnknown :: .resubmitEv i :: r.2)

/-- Result of one orchestrator execution: the outcome, the updated operation
log and the trace of observable events. -/
structure ExecResult where
  outcome : Outcome
  log : OperationLog
  trace : List Event

/-- Modelled from the spec: Orchestrator.execute of spec section 4.1.  The
operation log is consulted first and an exact-duplicate intent within the dedup
window is refused by returning the prior outcome without re-executing.  The
preconditions are then checked: the slippage tolerance must lie within 0 to
10000 basis points (InvalidParameter otherwise), for buy and sell the target
asset must resolve (AssetNotFound otherwise), and the balance of the spending
asset must cover amount plus estimated fee (InsufficientFunds otherwise).  The
expected output and the minimum-acceptable floor are computed by the price
model and the submission loop is run; the terminal outcome is recorded in the
operation log. -/
def execute (cfg : OrchestratorConfig) (env : ChainEnv) (log : OperationLog)
    (now : Nat) (intent : TradeIntent) : ExecResult :=
  match lookupDedup cfg log now intent with
  | some prior => ⟨prior, log, []⟩
  | none =>
    if 10000 < intent.slippageBps then
      ⟨.invalidParameter, ⟨intent, now, .invalidParameter⟩ :: log, []⟩
    else if intent.kind ≠ .createAndBuyOp ∧ env.assetFound = false then
      ⟨.assetNotFound, ⟨intent, now, .assetNotFound⟩ :: log, []⟩
    else if env.balance < intent.amount + env.fee then
      ⟨.insufficientFunds, ⟨intent, now, .insufficientFunds⟩ :: log, []⟩
    else
      let r := runAttempts env (floorFor env intent) 0 cfg.maxRetries
      ⟨r.1, ⟨intent, now, r.1⟩ :: log, r.2⟩

/-- Number of ChainClient.submit calls in a trace. -/
def submitCount (tr : List Event) : Nat :=
  tr.countP (fun e => match e with | .submitCall _ => true | _ => false)

/-- Number of transitions to Confirmed in a trace. -/
def confirmCount (tr : List Event) : Nat :=
  tr.countP (fun e => match e with | .confirmedEv _ _ => true | _ => false)

/-- Scans a trace remembering the previous event and requires every
resubmission decision to be immediately preceded by a status re-query of the
same submission id that answered Unknown. -/
def resubmitGuardAux : Option Event → List Event → Bool
  | _, [] => true
  | prev, e :: rest =>
    (match e, prev with
     | Event.resubmitEv k, some (Event.requeryEv j QueryStatus.qUnknown) => j == k
     | Event.resubmitEv _, _ => false
     | _, _ => true) && resubmitGuardAux (some e) rest

/-- Checks that every resubmission decision in a trace happens right after a
status re-query of the same submission id answered Unknown. -/
def resubmitsGuarded (l : List Event) : Bool :=
  resubmitGuardAux none l

/-- Log well-formedness: every confirmed outcome recorded in the log meets the
floor of its own intent against the current curve.  Logs produced by the
orchestrator itself satisfy this invariant. -/
def wellFormedLog (env : ChainEnv) (log : OperationLog) : Bool :=
  log.all (fun e => match e.outcome with
    | .confirmed out => Nat.ble (floorFor env e.intent) out
    | _ => true)

/-- Validity of an intent, spec section 4.1: the slippage tolerance is within
0 to 10000 basis points and, for buy and sell, the target asset resolves. -/
def validIntent (env : ChainEnv) (intent : TradeIntent) : Bool :=
  Nat.ble intent.slippageBps 10000 &&
    (decide (intent.kind = .createAndBuyOp) || env.assetFound)

/-- Sufficient balance, spec section 4.1: balance of the spending asset covers
the required amount plus the estimated fee. -/
def sufficientBalance (env : ChainEnv) (intent : TradeIntent) : Bool :=
  Nat.ble (intent.amount + env.fee) env.balance

/-! ## Embeddings of the TypeScript source -/

/-- Conversion of a SOL amount to lamports as the source computes it:
BigInt(Math.floor(buyAmountSol * LAMPORTS_PER_SOL)) with
LAMPORTS_PER_SOL = 10^9.  The JavaScript number is modelled as a rational. -/
def solToLamports (sol : Rat) : Nat :=
  (sol * 1000000000).floor.toNat

/-- Embedding of src/config/devnet.ts (src/unnamed/part_003): the JavaScript
string or-else, a || b, which yields b exactly when a is undefined or the empty
string (the only falsy string). -/
def jsOrStr (a : Option String) (b : String) : String :=
  match a with
  | some s => if s = "" then b else s
  | none => b

/-- Embedding of DEVNET_CONFIG.RPC_ENDPOINTS.DEFAULT from
src/config/devnet.ts. -/
def defaultDevnetRpc : String := "https://api.devnet.solana.com"

/-- Embedding of getDevnetRpcUrl from src/config/devnet.ts
(src/unnamed/part_003, lines 37 to 41):
process.env.DEVNET_RPC_URL || process.env.HELIUS_DEVNET_RPC_URL || DEFAULT.
The two environment variables are passed as Option String, none standing for
an unset variable. -/
def getDevnetRpcUrl (devnetRpcUrl heliusDevnetRpcUrl : Option String) : String :=
  jsOrStr devnetRpcUrl (jsOrStr heliusDevnetRpcUrl defaultDevnetRpc)

/-- JSON values as produced by JSON.parse, for the wallet loader embedding. -/
inductive Json where
  | arr (elems : List Json)
  | num (n : Int)
  | str (s : String)
  | boolVal (b : Bool)
  | nullVal
  | obj (fields : List (String × Json))

/-- Errors thrown by WalletManager.loadWalletFromFile: the missing-file error
thrown before the try block, and the wrapping error thrown by the catch block
for every failure inside the try block (unparseable content, a non-array or
wrong-length value, or Keypair.fromSecretKey rejecting the bytes). -/
inductive WalletError where
  | fileNotFound (path : String)
  | failedToLoad (filename : String)
deriving DecidableEq

/-- Embedding of WalletManager.loadWalletFromFile from src/src/utils/wallet.ts
(lines 21 to 40).  The file system and the JSON parser are oracles: fileFound
is fs.existsSync on the joined path, parsed is the result of JSON.parse on the
file content with none standing for a parse exception, and fromSecretKey is
Keypair.fromSecretKey on the element list with none standing for a throw.  The
source first throws Wallet-file-not-found when the file is missing; inside the
try block it throws Invalid-wallet-format unless the parsed value is an array
of exactly 64 elements, and the catch block wraps every such failure as
Failed-to-load-wallet. -/
def loadWalletFromFile (fileFound : Bool) (parsed : Option Json)
    (fromSecretKey : List Json → Option Nat) (filename : String) :
    Except WalletError Nat :=
  if fileFound = false then
    .error (.fileNotFound filename)
  else
    match parsed with
    | none => .error (.failedToLoad filename)
    | some j =>
      match j with
      | .arr elems =>
        if elems.length = 64 then
          match fromSecretKey elems with
          | some kp => .ok kp
          | none => .error (.failedToLoad filename)
        else
          .error (.failedToLoad filename)
      | _ => .error (.failedToLoad filename)

/-- Embedding of getSPLBalance from src/example/basic (the util module, lines
280 to 300 of src/example/basic/index.ts in the flattened listing).  The whole
interaction with the connection is the oracle argument: an exception from
getParsedTokenAccountsByOwner is Except.error, and otherwise the list carries,
per token account, the parsed uiAmount with none standing for null or
undefined.  The source returns 0 from the catch block, 0 when the account list
is empty, and balance || 0 otherwise, which is the uiAmount when present and
non-zero and 0 otherwise. -/
def getSPLBalance (query : Except Unit (List (Option Rat))) : Rat :=
  match query with
  | .error _ => 0
  | .ok accounts =>
    match accounts with
    | [] => 0
    | a :: _ =>
      match a with
      | none => 0
      | some q => q

/-- Trade instructions issued to the external SDK by the example scripts. -/
inductive SdkCall where
  | createAndBuyCall (mint : Nat) (lamports : Nat) (slippageBps : Nat)
  | buyCall (mint : Nat) (lamports : Nat) (slippageBps : Nat)
  | sellCall (mint : Nat) (amount : Nat) (slippageBps : Nat)
deriving DecidableEq

/-- Mint identifier of a trade instruction. -/
def mintOfCall : SdkCall → Nat
  | .createAndBuyCall m _ _ => m
  | .buyCall m _ _ => m
  | .sellCall m _ _ => m

/-- Embedding of buyTokens from src/example/basic/index.ts (lines 65 to 106):
the trade instructions the function issues to the SDK.  The function receives
the mint keypair passedMint but, as a workaround for an SDK account-key bug,
generates a fresh throwaway keypair (Keypair.generate, modelled by the oracle
argument tempMint), and issues a single sdk.createAndBuy on that temporary
mint with BigInt(0.0001 * LAMPORTS_PER_SOL) lamports and the constant
SLIPPAGE_BASIS_POINTS = 100; it never issues sdk.buy, and the passed mint is
only printed.  Read-only queries and logging are not trade instructions and
errors are caught and logged, so the issued instruction list does not depend
on the outcome. -/
def basicBuyTokensCalls (tempMint passedMint : Nat) : List SdkCall :=
  [SdkCall.createAndBuyCall tempMint (solToLamports ((1 : Rat) / 10000)) 100]

/-- Environment of the TokenBuyer script of src/unnamed/part_000: whether the
SDK field is initialized, whether the wallet loads, whether new PublicKey
accepts the mint address string, whether the bonding curve queries of
getTokenInfo and getBondingCurveAccount throw, the bonding curve account for
the mint with none when the token is not found, whether sdk.buy reports
success, and whether confirmTransaction reports an error. -/
structure TbEnv where
  sdkInitialized : Bool
  walletOk : Bool
  mintValid : Bool
  queryFails : Bool
  bondingCurve : Option BondingCurveState
  buySuccess : Bool
  confirmErr : Bool

/-- Embedding of the BuyTokensConfig of src/unnamed/part_000: the mint address
is modelled as a numeric identifier, the buy amount in SOL as a rational, and
the optional slippage whose absence defaults to 500. -/
structure BuyCfg where
  mintAddress : Nat
  buyAmountSol : Rat
  slippageBasisPoints : Option Nat

/-- Embedding of TokenBuyer.buyTokens from src/unnamed/part_000 (lines 115 to
187) up to the sdk.buy submission: the function throws when the SDK is not
initialized, when the wallet fails to load, when the mint address does not
parse, when the bonding curve query throws, and when the bonding curve account
is absent; otherwise it reaches sdk.buy with the mint, the lamports computed
from the SOL amount, and the configured slippage defaulted to 500.  No check
of the slippage value is made anywhere on the path. -/
def buyTokensPre (env : TbEnv) (cfg : BuyCfg) : Except String SdkCall :=
  if env.sdkInitialized = false then
    .error "SDK not initialized"
  else if env.walletOk = false then
    .error "Failed to load trading wallet"
  else if env.mintValid = false then
    .error "Invalid public key input"
  else if env.queryFails = true then
    .error "Error getting token info"
  else
    match env.bondingCurve with
    | none => .error "Token not found on Pump.fun. Cannot buy."
    | some _ =>
      .ok (SdkCall.buyCall cfg.mintAddress (solToLamports cfg.buyAmountSol)
            (cfg.slippageBasisPoints.getD 500))

/-- Embedding of TokenBuyer.sellTokens from src/unnamed/part_000 (lines 192 to
242) up to the sdk.sell submission: the function throws when the SDK is not
initialized, when the wallet fails to load or the mint address does not parse;
otherwise it reaches sdk.sell with the mint, the requested raw amount and the
hard-coded slippage BigInt(500).  The function has no slippage parameter and
makes no range check. -/
def sellTokensPre (env : TbEnv) (mintAddress : Nat) (sellAmount : Nat) :
    Except String SdkCall :=
  if env.sdkInitialized = false then
    .error "SDK not initialized"
  else if env.walletOk = false then
    .error "Failed to load trading wallet"
  else if env.mintValid = false then
    .error "Invalid public key input"
  else
    .ok (SdkCall.sellCall mintAddress sellAmount 500)

/-- Embedding of TokenBuyer.buyTokens from src/unnamed/part_000 as a whole:
after the submission of buyTokensPre the source throws when result.success is
false and when confirmTransaction reports an error, then re-queries the token
info, whose failure also throws; every throw is logged by the catch block and
rethrown. -/
def buyTokensRun (env : TbEnv) (cfg : BuyCfg) : Except String Unit :=
  match buyTokensPre env cfg with
  | .error e => .error e
  | .ok _ =>
    if env.buySuccess = false then
      .error "Buy failed"
    else if env.confirmErr = true then
      .error "Transaction failed"
    else if env.queryFails = true then
      .error "Error getting token info"
    else
      .ok ()

/-- Termination behaviour of the process running the script of
src/unnamed/part_000. -/
inductive MainResult where
  | completed
  | exitedWithCode (code : Nat)
deriving DecidableEq

/-- Embedding of the buy configuration hard-coded in main of
src/unnamed/part_000 (lines 270 to 276): the mint address string is modelled
by the identifier 0, the amount is 0.0001 SOL and the slippage 500. -/
def mainBuyConfig : BuyCfg := ⟨0, (1 : Rat) / 10000, some 500⟩

/-- Embedding of main from src/unnamed/part_000 (lines 262 to 298): it
initializes the SDK (whose failure throws), runs buyTokens on the hard-coded
configuration, and its catch block logs the error and calls process.exit(1);
a successful run completes normally. -/
def mainModel (env : TbEnv) : MainResult :=
  if env.walletOk = false then
    .exitedWithCode 1
  else
    match buyTokensRun { env with sdkInitialized := true } mainBuyConfig with
    | .error _ => .exitedWithCode 1
    | .ok _ => .completed

/-! ## Concrete demonstration values used by witnesses -/

/-- Concrete bonding curve state with the reserves named by the spec test
vector. -/
def demoCurve : BondingCurveState := ⟨30000000, 1000000000, 0, 0⟩

/-- Concrete chain environment whose first attempt is accepted, lands with raw
output 29971 and is observed within the wait budget. -/
def demoChainEnv : ChainEnv :=
  ⟨fun _ => ⟨true, some 29971, true⟩, 2000000, 1000, demoCurve, true⟩

/-- Concrete valid buy intent with the spec test vector amounts. -/
def demoIntent : TradeIntent := ⟨1, 1, 1000000, 500, .buyOp, 0⟩

/-- Concrete intent whose slippage tolerance 20000 lies outside 0 to 10000. -/
def demoBadIntent : TradeIntent := ⟨1, 1, 1000000, 20000, .buyOp, 0⟩

/-- Concrete orchestrator configuration with three retries and a dedup window
of 100 time units. -/
def demoCfg : OrchestratorConfig := ⟨3, 100⟩

/-- Concrete healthy TokenBuyer environment: SDK initialized, wallet loaded,
mint parses, queries succeed and the bonding curve account exists. -/
def demoTbEnv : TbEnv := ⟨true, true, true, false, some demoCurve, true, false⟩

/-- Concrete TokenBuyer environment in which the token is not found on the
curve, an expected failure path. -/
def demoNoTokenEnv : TbEnv := ⟨true, true, true, false, none, true, false⟩

/-- Concrete buy configuration carrying an out-of-range slippage of 20000
basis points. -/
def demoBuyCfg : BuyCfg := ⟨7, (1 : Rat) / 10000, some 20000⟩

/-! ## Claim theorems -/

/-- C5: the slippage floor is computed from the expected output by integer
arithmetic as floor = expected * (1 - slippageBps / 10000); for every expected
output and slippageBps in 0 to 10000 the floor is at most the expected output,
and for virtualBase 30000000, virtualQuote 1000000000, quoteIn 1000000 and
slippageBps 500 the expected output is 29971, the floor is 28472, and the
floor equals the 5 percent haircut of the expected output with rounding
divergence below one unit (10000 * 28472 is within one denominator unit of
9500 * 29971). -/
theorem priceModel_floor_properties :
    (∀ expected bps : Nat, bps ≤ 10000 → minAcceptable expected bps ≤ expected) ∧
    quoteOutput ⟨30000000, 1000000000, 0, 0⟩ 1000000 TradeDirection.baseForQuote = 29971 ∧
    minAcceptable 29971 500 = 28472 ∧
    10000 * 28472 ≤ 9500 * 29971 ∧
    9500 * 29971 < 10000 * (28472 + 1) := by
  refine ⟨?_, by decide, by decide, by decide, by decide⟩
  intro expected bps _
  have h1 : expected * (10000 - bps) ≤ expected * 10000 :=
    Nat.mul_le_mul_left expected (Nat.sub_le 10000 bps)
  calc minAcceptable expected bps = expected * (10000 - bps) / 10000 := rfl
    _ ≤ expected * 10000 / 10000 := Nat.div_le_div_right h1
    _ = expected := Nat.mul_div_cancel expected (by decide)

/-- Witness for C5: the floor bound instantiated at the spec test vector. -/
theorem priceModel_floor_properties_witness :
    (500 : Nat) ≤ 10000 ∧ minAcceptable 29971 500 ≤ 29971 :=
  ⟨by decide, priceModel_floor_properties.1 29971 500 (by decide)⟩

/-- C7: the buy operation of the basic example does not buy the requested
mint: for every invocation, buyTokens generates a fresh throwaway mint keypair
and issues createAndBuy on that new token, and never issues the SDK buy
instruction on the mint passed in. -/
theorem basicBuyTokens_uses_throwaway_mint (tempMint passedMint : Nat) :
    basicBuyTokensCalls tempMint passedMint =
      [SdkCall.createAndBuyCall tempMint 100000 100] ∧
    (∀ c ∈ basicBuyTokensCalls tempMint passedMint,
      ∀ m l s, c ≠ SdkCall.buyCall m l s) ∧
    (tempMint ≠ passedMint →
      ∀ c ∈ basicBuyTokensCalls tempMint passedMint, mintOfCall c ≠ passedMint) := by
  have hlam : solToLamports ((1 : Rat) / 10000) = 100000 := by
    norm_num [solToLamports]
    rfl
  refine ⟨?_, ?_, ?_⟩
  · simp only [basicBuyTokensCalls, hlam]
  · intro c hc m l s
    simp [basicBuyTokensCalls] at hc
    subst hc
    simp
  · intro hne c hc
    simp [basicBuyTokensCalls] at hc
    subst hc
    simpa [mintOfCall] using hne

/-- Witness for C7: instantiated at distinct temporary and passed mints. -/
theorem basicBuyTokens_uses_throwaway_mint_witness :
    (1 : Nat) ≠ 2 ∧ (∀ c ∈ basicBuyTokensCalls 1 2, mintOfCall c ≠ 2) :=
  ⟨by decide, (basicBuyTokens_uses_throwaway_mint 1 2).2.2 (by decide)⟩

/-- C8 counterexample: DEVNET_RPC_URL set to the empty string is a set
variable whose value is not returned; the code falls through to the Helius
variable, so the claim that the DEVNET_RPC_URL value is returned whenever the
variable is set is false. -/
theorem getDevnetRpcUrl_empty_string_cex :
    getDevnetRpcUrl (some "") (some "https://h.example") = "https://h.example" ∧
    ¬ ("https://h.example" = "") := by
  exact ⟨by decide, by decide⟩

/-- C8 amended: getDevnetRpcUrl is a deterministic three-way fallback on
JavaScript truthiness: it returns the DEVNET_RPC_URL value when that variable
is set to a non-empty string, otherwise the HELIUS_DEVNET_RPC_URL value when
set to a non-empty string, otherwise the constant default endpoint; a variable
set to the empty string falls through as if unset, and the function is total,
never throwing. -/
theorem getDevnetRpcUrl_fallback (dev hel : Option String) :
    (∀ s, dev = some s → ¬ s = "" → getDevnetRpcUrl dev hel = s) ∧
    ((dev = none ∨ dev = some "") →
      ∀ t, hel = some t → ¬ t = "" → getDevnetRpcUrl dev hel = t) ∧
    ((dev = none ∨ dev = some "") → (hel = none ∨ hel = some "") →
      getDevnetRpcUrl dev hel = defaultDevnetRpc) := by
  refine ⟨?_, ?_, ?_⟩
  · intro s hd hs
    subst hd
    simp [getDevnetRpcUrl, jsOrStr, hs]
  · intro hd t ht hts
    subst ht
    rcases hd with h | h <;> subst h <;> simp [getDevnetRpcUrl, jsOrStr, hts]
  · intro hd hh
    rcases hd with h | h <;> rcases hh with h2 | h2 <;> subst h <;> subst h2 <;>
      simp [getDevnetRpcUrl, jsOrStr, defaultDevnetRpc]

/-- Witness for C8: the first fallback stage at a concrete non-empty value. -/
theorem getDevnetRpcUrl_fallback_witness :
    (some "https://x" : Option String) = some "https://x" ∧ ¬ ("https://x" = "") ∧
    getDevnetRpcUrl (some "https://x") none = "https://x" :=
  ⟨rfl, by decide,
    (getDevnetRpcUrl_fallback (some "https://x") none).1 "https://x" rfl (by decide)⟩

/-- C9: loadWalletFromFile returns a keypair only when the file exists and its
content parses to a JSON array of exactly 64 elements; a missing file is
reported as the wallet-file-not-found error and every other failing input
(unparseable content, a non-array value, a wrong-length array, or rejected
bytes) is wrapped as the failed-to-load error. -/
theorem loadWalletFromFile_spec (fileFound : Bool) (parsed : Option Json)
    (fromSecretKey : List Json → Option Nat) (filename : String) :
    (∀ kp, loadWalletFromFile fileFound parsed fromSecretKey filename = .ok kp →
      fileFound = true ∧ ∃ elems, parsed = some (.arr elems) ∧ elems.length = 64) ∧
    (fileFound = false →
      loadWalletFromFile fileFound parsed fromSecretKey filename =
        .error (.fileNotFound filename)) ∧
    (fileFound = true →
      (∀ elems, parsed = some (.arr elems) → elems.length ≠ 64) →
      loadWalletFromFile fileFound parsed fromSecretKey filename =
        .error (.failedToLoad filename)) := by
  refine ⟨?_, ?_, ?_⟩
  · intro kp h
    cases fileFound with
    | false => simp [loadWalletFromFile] at h
    | true =>
      refine ⟨rfl, ?_⟩
      cases parsed with
      | none => simp [loadWalletFromFile] at h
      | some j =>
        cases j with
        | arr elems =>
          by_cases hl : elems.length = 64
          · exact ⟨elems, rfl, hl⟩
          · simp [loadWalletFromFile, hl] at h
        | num n => simp [loadWalletFromFile] at h
        | str s => simp [loadWalletFromFile] at h
        | boolVal b => simp [loadWalletFromFile] at h
        | nullVal => simp [loadWalletFromFile] at h
        | obj fields => simp [loadWalletFromFile] at h
  · intro h
    subst h
    simp [loadWalletFromFile]
  · intro hf hbad
    subst hf
    cases parsed with
    | none => simp [loadWalletFromFile]
    | some j =>
      cases j with
      | arr elems =>
        have : elems.length ≠ 64 := hbad elems rfl
        simp [loadWalletFromFile, this]
      | num n => simp [loadWalletFromFile]
      | str s => simp [loadWalletFromFile]
      | boolVal b => simp [loadWalletFromFile]
      | nullVal => simp [loadWalletFromFile]
      | obj fields => simp [loadWalletFromFile]

/-- Witness for C9: a present file parsing to a 64-element array yields a
keypair, and the necessary conditions hold there. -/
theorem loadWalletFromFile_spec_witness :
    true = true ∧
    ∃ elems, (some (Json.arr (List.replicate 64 (Json.num 1))) : Option Json) =
        some (Json.arr elems) ∧ elems.length = 64 :=
  (loadWalletFromFile_spec true (some (Json.arr (List.replicate 64 (Json.num 1))))
      (fun _ => some 7) "trading-wallet.json").1 7 rfl

/-- C10: getSPLBalance is total over its error branches: an exception from the
underlying query yields 0, an empty token-account list yields 0, a null or
undefined reported balance yields 0, and a present balance is returned as the
number it is. -/
theorem getSPLBalance_total (query : Except Unit (List (Option Rat))) :
    (query = .error () → getSPLBalance query = 0) ∧
    (query = .ok [] → getSPLBalance query = 0) ∧
    (∀ rest, query = .ok (none :: rest) → getSPLBalance query = 0) ∧
    (∀ x rest, query = .ok (some x :: rest) → getSPLBalance query = x) := by
  refine ⟨?_, ?_, ?_, ?_⟩
  · intro h; subst h; rfl
  · intro h; subst h; rfl
  · intro rest h; subst h; rfl
  · intro x rest h; subst h; rfl

/-- Witness for C10: the exception branch at a concrete query. -/
theorem getSPLBalance_total_witness :
    (Except.error () : Except Unit (List (Option Rat))) = .error () ∧
    getSPLBalance (.error ()) = 0 :=
  ⟨rfl, (getSPLBalance_total (.error ())).1 rfl⟩

/-- C4 counterexample: TokenBuyer.buyTokens invoked with slippage 20000 basis
points, well outside 0 to 10000, in a healthy environment does not fail with
an InvalidParameter error: it reaches the sdk.buy submission carrying the
out-of-range slippage unchanged. -/
theorem buyTokens_out_of_range_slippage_submits :
    buyTokensPre demoTbEnv demoBuyCfg = Except.ok (SdkCall.buyCall 7 100000 20000) ∧
    10000 < 20000 := by
  constructor
  · show buyTokensPre demoTbEnv demoBuyCfg = _
    have hlam : solToLamports ((1 : Rat) / 10000) = 100000 := by
      norm_num [solToLamports]
      rfl
    simp only [buyTokensPre, demoTbEnv, demoBuyCfg, hlam]
    rfl
  · decide

/-- C4 amended: the source performs no slippage-range validation: TokenBuyer
buyTokens passes any configured slippage, defaulted to 500, unchanged to the
sdk.buy submission whenever its environment checks pass, and sellTokens
submits with the hard-coded slippage 500; the precondition that an intent with
slippage tolerance outside 0 to 10000 basis points fails with InvalidParameter
before any submission holds of the notional orchestrator model, whose execute
returns InvalidParameter with an empty trace and no submit call for such an
intent. -/
theorem slippage_validation_located (env : TbEnv) (cfg : BuyCfg)
    (ocfg : OrchestratorConfig) (cenv : ChainEnv) (log : OperationLog)
    (now : Nat) (intent : TradeIntent) :
    (env.sdkInitialized = true → env.walletOk = true → env.mintValid = true →
      env.queryFails = false → ∀ c, env.bondingCurve = some c →
      buyTokensPre env cfg =
        Except.ok (SdkCall.buyCall cfg.mintAddress (solToLamports cfg.buyAmountSol)
          (cfg.slippageBasisPoints.getD 500))) ∧
    (env.sdkInitialized = true → env.walletOk = true → env.mintValid = true →
      ∀ mintAddr amt, sellTokensPre env mintAddr amt =
        Except.ok (SdkCall.sellCall mintAddr amt 500)) ∧
    (lookupDedup ocfg log now intent = none → 10000 < intent.slippageBps →
      (execute ocfg cenv log now intent).outcome = Outcome.invalidParameter ∧
      (execute ocfg cenv log now intent).trace = [] ∧
      submitCount (execute ocfg cenv log now intent).trace = 0) := by
  refine ⟨?_, ?_, ?_⟩
  · intro h1 h2 h3 h4 c hc
    simp [buyTokensPre, h1, h2, h3, h4, hc]
  · intro h1 h2 h3 mintAddr amt
    simp [sellTokensPre, h1, h2, h3]
  · intro hl hs
    have he : execute ocfg cenv log now intent =
        ⟨.invalidParameter, ⟨intent, now, .invalidParameter⟩ :: log, []⟩ := by
      unfold execute
      rw [hl]
      simp [hs]
    rw [he]
    exact ⟨rfl, rfl, rfl⟩

/-- Witness for C4: the amended statement instantiated at the healthy
environment, the out-of-range configuration and a fresh intent with slippage
20000. -/
theorem slippage_validation_located_witness :
    lookupDedup demoCfg [] 0 demoBadIntent = none ∧ 10000 < demoBadIntent.slippageBps ∧
    ((execute demoCfg demoChainEnv [] 0 demoBadIntent).outcome = Outcome.invalidParameter ∧
      (execute demoCfg demoChainEnv [] 0 demoBadIntent).trace = [] ∧
      submitCount (execute demoCfg demoChainEnv [] 0 demoBadIntent).trace = 0) :=
  ⟨rfl, by decide,
    (slippage_validation_located demoTbEnv demoBuyCfg demoCfg demoChainEnv [] 0
        demoBadIntent).2.2 rfl (by decide)⟩

/-- C6 counterexample: in the source, the expected failure of the buy path in
which the token is not found on the bonding curve is not returned to the
caller as a typed result: buyTokens throws, and main terminates the process
with exit code 1. -/
theorem main_exits_on_expected_failure :
    mainModel demoNoTokenEnv = MainResult.exitedWithCode 1 ∧
    buyTokensRun demoNoTokenEnv mainBuyConfig =
      Except.error "Token not found on Pump.fun. Cannot buy." := by
  constructor <;> rfl

/-- C6 amended: in the source every expected failure of the buy flow is a
typed Except error up to the main boundary, but main catches every failure and
terminates the process with exit code 1, so expected failure paths do end in a
process exit rather than a typed result to the caller; a run of main either
completes or exits with code 1; the typed-result guarantee holds of the
notional orchestrator model, whose execute always returns one of the typed
Outcome constructors of the error taxonomy. -/
theorem expected_failures_exit_process (env : TbEnv) :
    (env.walletOk = true →
      ∀ e, buyTokensRun { env with sdkInitialized := true } mainBuyConfig =
          Except.error e →
      mainModel env = MainResult.exitedWithCode 1) ∧
    (mainModel env = MainResult.completed ∨
      mainModel env = MainResult.exitedWithCode 1) ∧
    (∀ ocfg cenv log now intent,
      (∃ out, (execute ocfg cenv log now intent).outcome = Outcome.confirmed out) ∨
      (execute ocfg cenv log now intent).outcome = Outcome.invalidParameter ∨
      (execute ocfg cenv log now intent).outcome = Outcome.insufficientFunds ∨
      (execute ocfg cenv log now intent).outcome = Outcome.assetNotFound ∨
      (execute ocfg cenv log now intent).outcome = Outcome.rejected ∨
      (execute ocfg cenv log now intent).outcome = Outcome.failedExhaustedRetries) := by
  refine ⟨?_, ?_, ?_⟩
  · intro hw e he
    have hw2 : ¬ (env.walletOk = false) := by simp [hw]
    unfold mainModel
    rw [if_neg hw2, he]
  · by_cases hw : env.walletOk = false
    · right
      simp [mainModel, hw]
    · unfold mainModel
      rw [if_neg hw]
      cases hb : buyTokensRun { env with sdkInitialized := true } mainBuyConfig with
      | error e => right; rfl
      | ok u => left; rfl
  · intro ocfg cenv log now intent
    cases ho : (execute ocfg cenv log now intent).outcome with
    | confirmed out => exact Or.inl ⟨out, rfl⟩
    | invalidParameter => exact Or.inr (Or.inl rfl)
    | insufficientFunds => exact Or.inr (Or.inr (Or.inl rfl))
    | assetNotFound => exact Or.inr (Or.inr (Or.inr (Or.inl rfl)))
    | rejected => exact Or.inr (Or.inr (Or.inr (Or.inr (Or.inl rfl))))
    | failedExhaustedRetries => exact Or.inr (Or.inr (Or.inr (Or.inr (Or.inr rfl))))

/-- Witness for C6: the amended statement instantiated at the environment in
which the token is not found. -/
theorem expected_failures_exit_process_witness :
    demoNoTokenEnv.walletOk = true ∧
    buyTokensRun { demoNoTokenEnv with sdkInitialized := true } mainBuyConfig =
      Except.error "Token not found on Pump.fun. Cannot buy." ∧
    mainModel demoNoTokenEnv = MainResult.exitedWithCode 1 :=
  ⟨rfl, rfl,
    (expected_failures_exit_process demoNoTokenEnv).1 rfl
      "Token not found on Pump.fun. Cannot buy." rfl⟩

/-! ## Support lemmas about the orchestrator model -/

/-- A confirmed outcome of the submission loop always meets the floor passed
to it, because the modelled ledger-side check rejects any landed submission
whose raw output is below the floor. -/
theorem runAttempts_confirmed_le (env : ChainEnv) (fl : Nat) :
    ∀ fuel i out, (runAttempts env fl i fuel).1 = Outcome.confirmed out → fl ≤ out := by
  intro fuel
  induction fuel with
  | zero =>
    intro i out h
    simp [runAttempts] at h
  | succ n ih =>
    intro i out h
    simp only [runAttempts] at h
    split at h
    · split at h
      · simp at h
      · simp only [] at h
        exact ih (i + 1) out h
    · split at h
      · next raw hraw =>
        split at h
        · next hle =>
          split at h <;> simp at h <;> omega
        · split at h <;> simp at h
      · split at h
        · simp at h
        · simp only [] at h
          exact ih (i + 1) out h

/-- The submission loop makes at most one transition to Confirmed. -/
theorem runAttempts_confirm_once (env : ChainEnv) (fl : Nat) :
    ∀ fuel i, confirmCount (runAttempts env fl i fuel).2 ≤ 1 := by
  intro fuel
  induction fuel with
  | zero =>
    intro i
    simp [runAttempts, confirmCount]
  | succ n ih =>
    intro i
    simp only [runAttempts]
    split
    · split
      · simp [confirmCount]
      · simpa [confirmCount, List.countP_cons] using ih (i + 1)
    · split
      · split
        · split <;> simp [confirmCount, List.countP_cons]
        · split <;> simp [confirmCount, List.countP_cons]
      · split
        · simp [confirmCount]
        · simpa [confirmCount, List.countP_cons] using ih (i + 1)

/-- Every resubmission made by the submission loop is immediately preceded by
a status re-query of the same submission id that answered Unknown, for every
starting previous event. -/
theorem runAttempts_guard_aux (env : ChainEnv) (fl : Nat) :
    ∀ fuel i prev, resubmitGuardAux prev (runAttempts env fl i fuel).2 = true := by
  intro fuel
  induction fuel with
  | zero =>
    intro i prev
    simp [runAttempts, resubmitGuardAux]
  | succ n ih =>
    intro i prev
    simp only [runAttempts]
    split
    · split
      · simp [resubmitGuardAux]
      · simpa [resubmitGuardAux] using ih (i + 1) _
    · split
      · split
        · split <;> simp [resubmitGuardAux]
        · split <;> simp [resubmitGuardAux]
      · split
        · simp [resubmitGuardAux]
        · simpa [resubmitGuardAux] using ih (i + 1) _

/-- A dedup hit makes execute return the prior outcome, leave the log
unchanged and perform nothing. -/
theorem execute_dedup_hit (cfg : OrchestratorConfig) (env : ChainEnv)
    (log : OperationLog) (now : Nat) (intent : TradeIntent) (o : Outcome)
    (h : lookupDedup cfg log now intent = some o) :
    execute cfg env log now intent = ⟨o, log, []⟩ := by
  unfold execute
  rw [h]

/-- Case analysis on one execute run: a dedup hit returning the prior
outcome, one of the three precondition failures, or the submission loop with
the recorded outcome. -/
theorem execute_shape (cfg : OrchestratorConfig) (env : ChainEnv)
    (log : OperationLog) (now : Nat) (intent : TradeIntent) :
    (∃ o, lookupDedup cfg log now intent = some o ∧
      execute cfg env log now intent = ⟨o, log, []⟩) ∨
    (lookupDedup cfg log now intent = none ∧
      ((10000 < intent.slippageBps ∧
         execute cfg env log now intent =
           ⟨.invalidParameter, ⟨intent, now, .invalidParameter⟩ :: log, []⟩) ∨
       (¬ 10000 < intent.slippageBps ∧
         (intent.kind ≠ .createAndBuyOp ∧ env.assetFound = false) ∧
         execute cfg env log now intent =
           ⟨.assetNotFound, ⟨intent, now, .assetNotFound⟩ :: log, []⟩) ∨
       (¬ 10000 < intent.slippageBps ∧
         ¬ (intent.kind ≠ .createAndBuyOp ∧ env.assetFound = false) ∧
         env.balance < intent.amount + env.fee ∧
         execute cfg env log now intent =
           ⟨.insufficientFunds, ⟨intent, now, .insufficientFunds⟩ :: log, []⟩) ∨
       (¬ 10000 < intent.slippageBps ∧
         ¬ (intent.kind ≠ .createAndBuyOp ∧ env.assetFound = false) ∧
         ¬ env.balance < intent.amount + env.fee ∧
         execute cfg env log now intent =
           ⟨(runAttempts env (floorFor env intent) 0 cfg.maxRetries).1,
            ⟨intent, now, (runAttempts env (floorFor env intent) 0 cfg.maxRetries).1⟩ :: log,
            (runAttempts env (floorFor env intent) 0 cfg.maxRetries).2⟩))) := by
  cases hq : lookupDedup cfg log now intent with
  | some o =>
    exact Or.inl ⟨o, rfl, execute_dedup_hit cfg env log now intent o hq⟩
  | none =>
    refine Or.inr ⟨rfl, ?_⟩
    by_cases h1 : 10000 < intent.slippageBps
    · refine Or.inl ⟨h1, ?_⟩
      unfold execute
      rw [hq, if_pos h1]
    · by_cases h2 : intent.kind ≠ OperationKind.createAndBuyOp ∧ env.assetFound = false
      · refine Or.inr (Or.inl ⟨h1, h2, ?_⟩)
        unfold execute
        rw [hq, if_neg h1, if_pos h2]
      · by_cases h3 : env.balance < intent.amount + env.fee
        · refine Or.inr (Or.inr (Or.inl ⟨h1, h2, h3, ?_⟩))
          unfold execute
          rw [hq, if_neg h1, if_neg h2, if_pos h3]
        · refine Or.inr (Or.inr (Or.inr ⟨h1, h2, h3, ?_⟩))
          unfold execute
          rw [hq, if_neg h1, if_neg h2, if_neg h3]

/-- A successful dedup lookup names an entry of the log with the same intent
and the returned outcome. -/
theorem lookupDedup_mem (cfg : OrchestratorConfig) (log : OperationLog)
    (now : Nat) (intent : TradeIntent) (o : Outcome)
    (h : lookupDedup cfg log now intent = some o) :
    ∃ e ∈ log, e.intent = intent ∧ e.outcome = o := by
  unfold lookupDedup at h
  cases hf : log.find?
      (fun e => decide (e.intent = intent) && Nat.ble (now - e.recordedAt) cfg.dedupWindow) with
  | none =>
    rw [hf] at h
    simp at h
  | some e =>
    rw [hf] at h
    have hmem := List.mem_of_find?_eq_some hf
    have hp := List.find?_some hf
    have hint : e.intent = intent := by
      rw [Bool.and_eq_true] at hp
      exact of_decide_eq_true hp.1
    refine ⟨e, hmem, hint, ?_⟩
    simpa using h

/-- The dedup lookup finds the record at the head of the log when the window
covers it. -/
theorem lookupDedup_head (cfg : OrchestratorConfig) (log : OperationLog)
    (now1 now2 : Nat) (intent : TradeIntent) (o : Outcome)
    (hw : now2 - now1 ≤ cfg.dedupWindow) :
    lookupDedup cfg (⟨intent, now1, o⟩ :: log) now2 intent = some o := by
  unfold lookupDedup
  rw [List.find?_cons_of_pos]
  simp [Nat.ble_eq, hw]

/-- A fresh execute run records its own outcome at the head of the log. -/
theorem execute_fresh_log (cfg : OrchestratorConfig) (env : ChainEnv)
    (log : OperationLog) (now : Nat) (intent : TradeIntent)
    (h : lookupDedup cfg log now intent = none) :
    (execute cfg env log now intent).log =
      ⟨intent, now, (execute cfg env log now intent).outcome⟩ :: log := by
  rcases execute_shape cfg env log now intent with
    ⟨o, hq, _⟩ | ⟨_, ⟨_, he⟩ | ⟨_, _, he⟩ | ⟨_, _, _, he⟩ | ⟨_, _, _, he⟩⟩
  · rw [h] at hq
    exact absurd hq (by simp)
  all_goals rw [he]

/-! ## Orchestrator claim theorems -/

/-- C1: for every valid TradeIntent with sufficient balance, executed against
a well-formed operation log, Orchestrator.execute either terminates in
Confirmed with realized output at least the declared minimum-acceptable
floor, or terminates with one of the typed terminal errors; it never returns
a success outcome whose output is below the floor. -/
theorem execute_respects_floor (cfg : OrchestratorConfig) (env : ChainEnv)
    (log : OperationLog) (now : Nat) (intent : TradeIntent)
    (hlog : wellFormedLog env log = true)
    (hvalid : validIntent env intent = true)
    (hbal : sufficientBalance env intent = true) :
    (∃ out, (execute cfg env log now intent).outcome = Outcome.confirmed out ∧
      floorFor env intent ≤ out) ∨
    ((execute cfg env log now intent).outcome = Outcome.invalidParameter ∨
     (execute cfg env log now intent).outcome = Outcome.insufficientFunds ∨
     (execute cfg env log now intent).outcome = Outcome.assetNotFound ∨
     (execute cfg env log now intent).outcome = Outcome.rejected ∨
     (execute cfg env log now intent).outcome = Outcome.failedExhaustedRetries) := by
  have key : ∀ out, (execute cfg env log now intent).outcome = Outcome.confirmed out →
      floorFor env intent ≤ out := by
    intro out h
    rcases execute_shape cfg env log now intent with
      ⟨o, hq, he⟩ | ⟨_, ⟨_, he⟩ | ⟨_, _, he⟩ | ⟨_, _, _, he⟩ | ⟨_, _, _, he⟩⟩
    · rw [he] at h
      simp only [] at h
      subst h
      rcases lookupDedup_mem cfg log now intent _ hq with ⟨e, hmem, hint, hout⟩
      have hwf := (List.all_eq_true.1 hlog) e hmem
      rw [hout] at hwf
      simp only [Nat.ble_eq] at hwf
      rw [hint] at hwf
      exact hwf
    · rw [he] at h
      simp at h
    · rw [he] at h
      simp at h
    · rw [he] at h
      simp at h
    · rw [he] at h
      simp only [] at h
      exact runAttempts_confirmed_le env (floorFor env intent) cfg.maxRetries 0 out h
  cases ho : (execute cfg env log now intent).outcome with
  | confirmed out => exact Or.inl ⟨out, rfl, key out ho⟩
  | invalidParameter => exact Or.inr (Or.inl rfl)
  | insufficientFunds => exact Or.inr (Or.inr (Or.inl rfl))
  | assetNotFound => exact Or.inr (Or.inr (Or.inr (Or.inl rfl)))
  | rejected => exact Or.inr (Or.inr (Or.inr (Or.inr (Or.inl rfl))))
  | failedExhaustedRetries => exact Or.inr (Or.inr (Or.inr (Or.inr (Or.inr rfl))))

/-- Witness for C1: a valid funded buy intent against a healthy ledger whose
first attempt lands with output 29971, above the floor 28472. -/
theorem execute_respects_floor_witness :
    wellFormedLog demoChainEnv [] = true ∧
    validIntent demoChainEnv demoIntent = true ∧
    sufficientBalance demoChainEnv demoIntent = true ∧
    ((∃ out, (execute demoCfg demoChainEnv [] 0 demoIntent).outcome = Outcome.confirmed out ∧
        floorFor demoChainEnv demoIntent ≤ out) ∨
     ((execute demoCfg demoChainEnv [] 0 demoIntent).outcome = Outcome.invalidParameter ∨
      (execute demoCfg demoChainEnv [] 0 demoIntent).outcome = Outcome.insufficientFunds ∨
      (execute demoCfg demoChainEnv [] 0 demoIntent).outcome = Outcome.assetNotFound ∨
      (execute demoCfg demoChainEnv [] 0 demoIntent).outcome = Outcome.rejected ∨
      (execute demoCfg demoChainEnv [] 0 demoIntent).outcome = Outcome.failedExhaustedRetries)) :=
  ⟨rfl, by decide, by decide,
    execute_respects_floor demoCfg demoChainEnv [] 0 demoIntent rfl (by decide) (by decide)⟩

/-- C3: in every execution of the orchestrator, a resubmission happens only
immediately after re-querying the status of the original submission id and
receiving Unknown, and the trace contains at most one transition to
Confirmed, so one intent never produces two distinct confirmed submissions. -/
theorem execute_resubmit_guarded_single_confirm (cfg : OrchestratorConfig)
    (env : ChainEnv) (log : OperationLog) (now : Nat) (intent : TradeIntent) :
    resubmitsGuarded (execute cfg env log now intent).trace = true ∧
    confirmCount (execute cfg env log now intent).trace ≤ 1 := by
  rcases execute_shape cfg env log now intent with
    ⟨o, _, he⟩ | ⟨_, ⟨_, he⟩ | ⟨_, _, he⟩ | ⟨_, _, _, he⟩ | ⟨_, _, _, he⟩⟩
  · rw [he]
    exact ⟨rfl, by simp [confirmCount]⟩
  · rw [he]
    exact ⟨rfl, by simp [confirmCount]⟩
  · rw [he]
    exact ⟨rfl, by simp [confirmCount]⟩
  · rw [he]
    exact ⟨rfl, by simp [confirmCount]⟩
  · rw [he]
    exact ⟨runAttempts_guard_aux env (floorFor env intent) cfg.maxRetries 0 none,
      runAttempts_confirm_once env (floorFor env intent) cfg.maxRetries 0⟩

/-- A first attempt that is accepted, lands and is observed within the wait
budget makes the submission loop issue exactly one submit call. -/
theorem runAttempts_nice_first_submitCount (env : ChainEnv) (fl m raw : Nat)
    (h0 : (env.attempt 0).submitOk = true)
    (hraw : (env.attempt 0).fate = some raw)
    (hobs : (env.attempt 0).observedInBudget = true) :
    submitCount (runAttempts env fl 0 (m + 1)).2 = 1 := by
  by_cases hfl : fl ≤ raw <;>
    simp [runAttempts, h0, hraw, hobs, hfl, submitCount, List.countP_cons]

/-- C2: executing the same intent twice within the dedup window is
idempotent: when the first run is fresh, the second run within the window
returns the same outcome as the first and issues no submit call of its own;
when in addition the first attempt is accepted, lands and is observed in
budget, exactly one ChainClient submit call occurs across both executions. -/
theorem execute_idempotent (cfg : OrchestratorConfig) (env : ChainEnv)
    (log : OperationLog) (now1 now2 : Nat) (intent : TradeIntent)
    (hfresh : lookupDedup cfg log now1 intent = none)
    (hwin : now2 - now1 ≤ cfg.dedupWindow) :
    ((execute cfg env (execute cfg env log now1 intent).log now2 intent).outcome
      = (execute cfg env log now1 intent).outcome) ∧
    submitCount (execute cfg env (execute cfg env log now1 intent).log now2 intent).trace = 0 ∧
    ((env.attempt 0).submitOk = true → (env.attempt 0).observedInBudget = true →
      (∃ raw, (env.attempt 0).fate = some raw) → 1 ≤ cfg.maxRetries →
      validIntent env intent = true → sufficientBalance env intent = true →
      submitCount (execute cfg env log now1 intent).trace +
        submitCount (execute cfg env (execute cfg env log now1 intent).log now2 intent).trace
        = 1) := by
  have hlog1 := execute_fresh_log cfg env log now1 intent hfresh
  have hhit : execute cfg env (execute cfg env log now1 intent).log now2 intent =
      ⟨(execute cfg env log now1 intent).outcome,
        (execute cfg env log now1 intent).log, []⟩ := by
    apply execute_dedup_hit
    rw [hlog1]
    exact lookupDedup_head cfg log now1 now2 intent _ hwin
  refine ⟨by rw [hhit], by rw [hhit]; rfl, ?_⟩
  intro h0 hobs hraw hret hvalid hbal
  rcases hraw with ⟨raw, hraw⟩
  rw [hhit]
  have hz : submitCount ((⟨(execute cfg env log now1 intent).outcome,
      (execute cfg env log now1 intent).log, []⟩ : ExecResult).trace) = 0 := rfl
  rw [hz, Nat.add_zero]
  have hv := hvalid
  simp only [validIntent, Bool.and_eq_true, Bool.or_eq_true, Nat.ble_eq,
    decide_eq_true_eq] at hv
  have hb := hbal
  simp only [sufficientBalance, Nat.ble_eq] at hb
  have h1 : ¬ 10000 < intent.slippageBps := by omega
  have h2 : ¬ (intent.kind ≠ OperationKind.createAndBuyOp ∧ env.assetFound = false) := by
    rcases hv.2 with hk | ha
    · intro hcon
      exact hcon.1 hk
    · intro hcon
      rw [ha] at hcon
      exact absurd hcon.2 (by simp)
  have h3 : ¬ env.balance < intent.amount + env.fee := by omega
  rcases execute_shape cfg env log now1 intent with
    ⟨o, hq, _⟩ | ⟨_, ⟨hc, _⟩ | ⟨_, hc, _⟩ | ⟨_, _, hc, _⟩ | ⟨_, _, _, he⟩⟩
  · rw [hfresh] at hq
    exact absurd hq (by simp)
  · exact absurd hc h1
  · exact absurd hc h2
  · exact absurd hc h3
  · rw [he]
    obtain ⟨m, hm⟩ : ∃ m, cfg.maxRetries = m + 1 := ⟨cfg.maxRetries - 1, by omega⟩
    rw [hm]
    exact runAttempts_nice_first_submitCount env (floorFor env intent) m raw h0 hraw hobs

/-- Witness for C2: the idempotency of a concrete funded buy intent executed
at times 0 and 50 against a window of 100, with a healthy first attempt. -/
theorem execute_idempotent_witness :
    lookupDedup demoCfg [] 0 demoIntent = none ∧ 50 - 0 ≤ demoCfg.dedupWindow ∧
    ((execute demoCfg demoChainEnv (execute demoCfg demoChainEnv [] 0 demoIntent).log 50 demoIntent).outcome
      = (execute demoCfg demoChainEnv [] 0 demoIntent).outcome) :=
  ⟨rfl, by decide,
    (execute_idempotent demoCfg demoChainEnv [] 0 50 demoIntent rfl (by decide)).1⟩

end PumpSpec
